import Mathlib

/-!
Verification of the intent-unification engine core: a shallow embedding of
the enrichment delta/merge tracker (`src/services/enrichmentSync.ts`), the
decayed multi-source score calculator (`intentScoring` service) and the
weighted rule evaluator (ICP / persona matching service), together with
proofs of the specified properties.

JavaScript runtime values are modelled by the inductive type `JSVal`
(finite numbers as rationals; `NaN`, which cannot arise in the embedded
computations, is not modelled).  `Record<string, unknown>` objects and the
`Map`s used as in-memory stores are modelled as insertion-ordered
association lists.  Ambient wall-clock time (`new Date()`) is passed as an
explicit parameter.
-/

set_option maxHeartbeats 1000000

namespace IntentEngine

/-- A JavaScript runtime value: `undefined`, `null`, booleans, (finite)
numbers, strings, arrays and plain objects. -/
inductive JSVal where
  | vUndefined : JSVal
  | vNull : JSVal
  | vBool (b : Bool) : JSVal
  | vNum (q : ℚ) : JSVal
  | vStr (s : String) : JSVal
  | vArr (elems : List JSVal) : JSVal
  | vObj (fields : List (String × JSVal)) : JSVal
  deriving Repr

/-- A JavaScript object (`Record<string, unknown>`), as an insertion-ordered
association list of fields. -/
abbrev JSRecord := List (String × JSVal)

/-- `v === undefined` as a boolean test. -/
def isUndef : JSVal → Bool
  | .vUndefined => true
  | _ => false

/-- `v === null` as a boolean test. -/
def isNullV : JSVal → Bool
  | .vNull => true
  | _ => false

/-- The JavaScript `typeof` operator (note `typeof null === 'object'`). -/
def jsTypeof : JSVal → String
  | .vUndefined => "undefined"
  | .vNull => "object"
  | .vBool _ => "boolean"
  | .vNum _ => "number"
  | .vStr _ => "string"
  | .vArr _ => "object"
  | .vObj _ => "object"

/-- JavaScript strict equality `===` on primitive values.  On arrays and
objects `===` is reference equality; two separately-built values are never
reference-equal, so the model returns `false` there (the embedded code only
ever compares structurally after an `===` test fails, so this loses no
behaviour for the functions modelled here). -/
def strictEq : JSVal → JSVal → Bool
  | .vUndefined, .vUndefined => true
  | .vNull, .vNull => true
  | .vBool a, .vBool b => a == b
  | .vNum a, .vNum b => a == b
  | .vStr a, .vStr b => a == b
  | _, _ => false

/-- `Object.keys`-style entries of a value: an object's fields, an array's
elements keyed by their decimal index, nothing for primitives. -/
def jsEntries : JSVal → List (String × JSVal)
  | .vObj fields => fields
  | .vArr elems => elems.enum.map (fun p => (toString p.1, p.2))
  | _ => []

/-- Property lookup `v[k]`: first matching entry, `undefined` if absent. -/
def jsGet (v : JSVal) (k : String) : JSVal :=
  match (jsEntries v).find? (fun p => p.1 == k) with
  | some p => p.2
  | none => .vUndefined

theorem snd_mem_of_mem_enumFrom {α : Type} {l : List α} :
    ∀ {n : ℕ} {p : ℕ × α}, p ∈ l.enumFrom n → p.2 ∈ l := by
  induction l with
  | nil => intro n p h; simp [List.enumFrom] at h
  | cons x xs ih =>
    intro n p h
    simp only [List.enumFrom, List.mem_cons] at h
    rcases h with h | h
    · subst h; simp
    · exact List.mem_cons_of_mem _ (ih h)

theorem sizeOf_snd_lt_of_mem {fields : List (String × JSVal)}
    {p : String × JSVal} (h : p ∈ fields) : sizeOf p.2 < sizeOf fields := by
  have h1 : sizeOf p < sizeOf fields := List.sizeOf_lt_of_mem h
  have h2 : sizeOf p.2 < sizeOf p := by
    obtain ⟨a, b⟩ := p
    simp only [Prod.mk.sizeOf_spec]
    omega
  omega

theorem sizeOf_list_pos {α : Type} [SizeOf α] (l : List α) : 0 < sizeOf l := by
  cases l with
  | nil => simp
  | cons x xs => simp only [List.cons.sizeOf_spec]; omega

theorem sizeOf_jsGet_lt_obj (fields : List (String × JSVal)) (k : String) :
    sizeOf (jsGet (.vObj fields) k) < sizeOf (JSVal.vObj fields) := by
  have hf := sizeOf_list_pos fields
  simp only [jsGet, jsEntries]
  cases hfind : fields.find? (fun p => p.1 == k) with
  | none =>
    simp only [hfind, JSVal.vObj.sizeOf_spec, JSVal.vUndefined.sizeOf_spec]
    omega
  | some p =>
    have hmem : p ∈ fields := List.mem_of_find?_eq_some hfind
    have := sizeOf_snd_lt_of_mem hmem
    simp only [hfind, JSVal.vObj.sizeOf_spec]
    omega

theorem sizeOf_jsGet_lt_arr (elems : List JSVal) (k : String) :
    sizeOf (jsGet (.vArr elems) k) < sizeOf (JSVal.vArr elems) := by
  have hf := sizeOf_list_pos elems
  simp only [jsGet, jsEntries]
  cases hfind : (elems.enum.map (fun p => (toString p.1, p.2))).find?
      (fun p => p.1 == k) with
  | none =>
    simp only [hfind, JSVal.vArr.sizeOf_spec, JSVal.vUndefined.sizeOf_spec]
    omega
  | some p =>
    have hmem : p ∈ elems.enum.map (fun p => (toString p.1, p.2)) :=
      List.mem_of_find?_eq_some hfind
    obtain ⟨q, hq, hpq⟩ := List.mem_map.mp hmem
    have hq2 : q.2 ∈ elems := snd_mem_of_mem_enumFrom (l := elems) (n := 0) hq
    have hs : sizeOf q.2 < sizeOf elems := List.sizeOf_lt_of_mem hq2
    subst hpq
    simp only [hfind, JSVal.vArr.sizeOf_spec]
    omega

/-- Deep structural equality (`deepEqual` in `enrichmentSync.ts`).
Mirrors the source's guard order: strict equality first, then the
`undefined`/`null` guards (so `undefined` vs `null` is `false`), then the
`typeof` comparison, element-wise array comparison, and key-wise object
comparison (arrays compared against plain objects also take the key-wise
path, as in the source). -/
def deepEqual (a b : JSVal) : Bool :=
  if strictEq a b then true
  else if isUndef a && isUndef b then true
  else if isNullV a && isNullV b then true
  else if isUndef a || isUndef b then false
  else if isNullV a || isNullV b then false
  else if jsTypeof a ≠ jsTypeof b then false
  else
    match a, b with
    | .vArr xs, .vArr ys =>
      if xs.length = ys.length then
        (xs.zip ys).attach.all (fun p => deepEqual p.1.1 p.1.2)
      else false
    | .vArr xs, .vObj gs =>
      if (jsEntries (.vArr xs)).length = (jsEntries (.vObj gs)).length then
        ((jsEntries (.vArr xs)).map Prod.fst).attach.all
          (fun k => deepEqual (jsGet (.vArr xs) k.1) (jsGet (.vObj gs) k.1))
      else false
    | .vObj fs, .vArr ys =>
      if (jsEntries (.vObj fs)).length = (jsEntries (.vArr ys)).length then
        ((jsEntries (.vObj fs)).map Prod.fst).attach.all
          (fun k => deepEqual (jsGet (.vObj fs) k.1) (jsGet (.vArr ys) k.1))
      else false
    | .vObj fs, .vObj gs =>
      if (jsEntries (.vObj fs)).length = (jsEntries (.vObj gs)).length then
        ((jsEntries (.vObj fs)).map Prod.fst).attach.all
          (fun k => deepEqual (jsGet (.vObj fs) k.1) (jsGet (.vObj gs) k.1))
      else false
    | _, _ => false
termination_by sizeOf a + sizeOf b
decreasing_by
  · obtain ⟨⟨x, y⟩, hp⟩ := p
    obtain ⟨h1, h2⟩ := List.of_mem_zip hp
    have hx := List.sizeOf_lt_of_mem h1
    have hy := List.sizeOf_lt_of_mem h2
    show sizeOf x + sizeOf y < sizeOf (JSVal.vArr xs) + sizeOf (JSVal.vArr ys)
    simp only [JSVal.vArr.sizeOf_spec]
    omega
  · have ha := sizeOf_jsGet_lt_arr xs k.1
    have hb := sizeOf_jsGet_lt_obj gs k.1
    omega
  · have ha := sizeOf_jsGet_lt_obj fs k.1
    have hb := sizeOf_jsGet_lt_arr ys k.1
    omega
  · have ha := sizeOf_jsGet_lt_obj fs k.1
    have hb := sizeOf_jsGet_lt_obj gs k.1
    omega

example : deepEqual (.vNum 3) (.vNum 3) = true := by
  simp [deepEqual, strictEq]
example : deepEqual .vUndefined .vNull = false := by
  simp [deepEqual, strictEq, isUndef, isNullV]
example : deepEqual .vNull .vUndefined = false := by
  simp [deepEqual, strictEq, isUndef, isNullV]
example : deepEqual (.vNum 1) (.vNum 2) = false := by
  simp [deepEqual, strictEq, isUndef, isNullV, jsTypeof]

/-! ### Insertion-ordered maps

`Map.get` / `Map.set` and property assignment on JavaScript objects, modelled
on association lists: `set` overwrites the first entry with the key in place
and otherwise appends, matching JavaScript insertion-order semantics. -/

/-- `Map.get` / first-entry lookup. -/
def assocGet {α : Type} : List (String × α) → String → Option α
  | [], _ => none
  | p :: rest, k => if p.1 = k then some p.2 else assocGet rest k

/-- `Map.set` / property assignment: overwrite in place or append. -/
def assocSet {α : Type} (m : List (String × α)) (k : String) (v : α) :
    List (String × α) :=
  match m with
  | [] => [(k, v)]
  | (k', v') :: rest =>
    if k' = k then (k, v) :: rest else (k', v') :: assocSet rest k v

/-- Record lookup `data[field]` on a `Record<string, unknown>`:
`undefined` when the field is absent. -/
def jsGetR (data : JSRecord) (k : String) : JSVal :=
  match assocGet data k with
  | some v => v
  | none => .vUndefined

theorem assocGet_assocSet {α : Type} (m : List (String × α)) (k k' : String)
    (v : α) :
    assocGet (assocSet m k v) k' = if k' = k then some v else assocGet m k' := by
  induction m with
  | nil =>
    simp only [assocSet, assocGet]
    by_cases h : k = k'
    · subst h; simp
    · rw [if_neg h, if_neg (fun h' => h h'.symm)]
  | cons p rest ih =>
    obtain ⟨pk, pv⟩ := p
    simp only [assocSet]
    by_cases hpk : pk = k
    · subst hpk
      simp only [if_pos rfl, assocGet]
      by_cases h : pk = k'
      · subst h; simp
      · rw [if_neg h, if_neg (fun h' => h h'.symm), if_neg h]
    · rw [if_neg hpk]
      simp only [assocGet, ih]
      by_cases h2 : pk = k'
      · subst h2; simp [hpk]
      · by_cases h3 : k' = k <;> simp [h2, h3, hpk]

/-! ### Enrichment ledger and merger (`src/services/enrichmentSync.ts`) -/

/-- Entity kind. -/
inductive EntityType where
  | company : EntityType
  | contact : EntityType
  deriving Repr, DecidableEq

/-- Enrichment / signal provider. -/
inductive Source where
  | apollo : Source
  | zoominfo : Source
  deriving Repr, DecidableEq

def entityTypeStr : EntityType → String
  | .company => "company"
  | .contact => "contact"

def sourceStr : Source → String
  | .apollo => "apollo"
  | .zoominfo => "zoominfo"

/-- `EnrichmentData` (models/types.ts). -/
structure EnrichmentData where
  entityType : EntityType
  entityId : String
  source : Source
  data : JSRecord
  timestamp : String
  deriving Repr

/-- `FieldChange` (models/types.ts). -/
structure FieldChange where
  field : String
  oldValue : JSVal
  newValue : JSVal
  deriving Repr

/-- `EnrichmentDelta` (models/types.ts); `hubspotId` keeps the raw looked-up
value (`undefined` when absent). -/
structure EnrichmentDelta where
  entityType : EntityType
  entityId : String
  hubspotId : JSVal
  source : Source
  changes : List FieldChange
  timestamp : String
  deriving Repr

/-- The in-memory enrichment store (`Map<string, EnrichmentData>`). -/
abbrev EnrichmentStore := List (String × EnrichmentData)

/-- `trackableFields` (enrichmentSync.ts, lines 11-31). -/
def trackableFields : List String :=
  ["employeeCount", "annualRevenue", "industry", "description", "linkedinUrl",
   "website", "phone", "address", "city", "state", "country", "postalCode",
   "foundedYear", "technologies", "fundingTotal", "lastFundingDate", "title",
   "department", "seniority"]

/-- `getEnrichmentKey` (enrichmentSync.ts, lines 36-42). -/
def getEnrichmentKey (entityType : EntityType) (entityId : String)
    (source : Source) : String :=
  entityTypeStr entityType ++ ":" ++ entityId ++ ":" ++ sourceStr source

/-- `detectChanges` (enrichmentSync.ts, lines 82-102): one `FieldChange` per
trackable field whose old and new values are not `deepEqual`, in declaration
order. -/
def detectChanges (oldData newData : JSRecord) : List FieldChange :=
  trackableFields.filterMap (fun field =>
    let oldValue := jsGetR oldData field
    let newValue := jsGetR newData field
    if deepEqual oldValue newValue then none
    else some { field := field, oldValue := oldValue, newValue := newValue })

/-- `storeEnrichmentData` (enrichmentSync.ts, lines 47-77).  The ambient
timestamp `new Date().toISOString()` is the explicit `now` parameter; the
mutated module-level store is threaded as explicit state. -/
def storeEnrichmentData (now : String) (enrichment : EnrichmentData)
    (store : EnrichmentStore) : Option EnrichmentDelta × EnrichmentStore :=
  let key := getEnrichmentKey enrichment.entityType enrichment.entityId
    enrichment.source
  match assocGet store key with
  | none => (none, assocSet store key enrichment)
  | some existing =>
    let changes := detectChanges existing.data enrichment.data
    let store' := assocSet store key enrichment
    if changes.isEmpty then (none, store')
    else
      (some { entityType := enrichment.entityType,
              entityId := enrichment.entityId,
              hubspotId := jsGetR enrichment.data "hubspotId",
              source := enrichment.source,
              changes := changes,
              timestamp := now }, store')

/-- `getEnrichmentData` (enrichmentSync.ts, lines 139-146). -/
def getEnrichmentData (entityType : EntityType) (entityId : String)
    (source : Source) (store : EnrichmentStore) : Option EnrichmentData :=
  assocGet store (getEnrichmentKey entityType entityId source)

/-- `getAllEnrichmentForEntity` (enrichmentSync.ts, lines 151-166): apollo
then zoominfo, keeping only present snapshots. -/
def getAllEnrichmentForEntity (entityType : EntityType) (entityId : String)
    (store : EnrichmentStore) : List EnrichmentData :=
  [Source.apollo, Source.zoominfo].filterMap
    (fun s => getEnrichmentData entityType entityId s store)

/-- `Object.assign(target, src)`: copy every entry of `src` into `target`. -/
def recordAssign (target : JSRecord) (src : JSRecord) : JSRecord :=
  src.foldl (fun acc p => assocSet acc p.1 p.2) target

/-- The merge guard `value !== undefined && value !== null && value !== ''`
(enrichmentSync.ts, line 193). -/
def isMeaningful (v : JSVal) : Bool :=
  !(isUndef v) && !(isNullV v) && !(strictEq v (.vStr ""))

/-- The priority-source overlay loop (enrichmentSync.ts, lines 192-196). -/
def overlayMeaningful (merged : JSRecord) (entries : JSRecord) : JSRecord :=
  entries.foldl (fun acc p =>
    if isMeaningful p.2 then assocSet acc p.1 p.2 else acc) merged

/-- `mergeEnrichmentData` (enrichmentSync.ts, lines 172-200). -/
def mergeEnrichmentData (entityType : EntityType) (entityId : String)
    (prioritySource : Source) (store : EnrichmentStore) : JSRecord :=
  let allData := getAllEnrichmentForEntity entityType entityId store
  if allData.isEmpty then []
  else
    let secondarySource :=
      if prioritySource = Source.zoominfo then Source.apollo else Source.zoominfo
    let merged : JSRecord := []
    let merged := match allData.find? (fun d => d.source == secondarySource) with
      | some secondaryData => recordAssign merged secondaryData.data
      | none => merged
    let merged := match allData.find? (fun d => d.source == prioritySource) with
      | some primaryData => overlayMeaningful merged primaryData.data
      | none => merged
    merged

/-- `clearAllEnrichmentData` (enrichmentSync.ts, lines 205-207). -/
def clearAllEnrichmentData : EnrichmentStore := []

/-- `processBatchEnrichment` (enrichmentSync.ts, lines 212-225): apply
`storeEnrichmentData` per snapshot in input order, keeping non-absent
deltas. -/
def processBatchEnrichment (now : String) (enrichments : List EnrichmentData)
    (store : EnrichmentStore) : List EnrichmentDelta × EnrichmentStore :=
  enrichments.foldl (fun acc e =>
    let r := storeEnrichmentData now e acc.2
    match r.1 with
    | some delta => (acc.1 ++ [delta], r.2)
    | none => (acc.1, r.2)) ([], store)

/-! ### Intent scoring engine (`intentScoring` service, src/unnamed/part_001)

Timestamps (`signal.timestamp`, `new Date()`) are modelled as rational
epoch milliseconds; `new Date(s).getTime()` is the identity on them. -/

/-- `Math.round`: JavaScript rounds half toward positive infinity. -/
def jsRound (q : ℚ) : ℤ := Int.floor (q + 1 / 2)

/-- `IntentSignal` (models/types.ts). -/
structure IntentSignal where
  source : Source
  companyId : String
  companyName : String
  domain : Option String
  topic : String
  signalStrength : ℚ
  timestamp : ℚ
  deriving Repr, DecidableEq

/-- `ScoringConfig` (part_001, lines 17-22). -/
structure ScoringConfig where
  apolloWeight : ℚ
  zoomInfoWeight : ℚ
  decayDays : ℚ
  spikeThresholdPercent : ℚ
  deriving Repr

/-- `defaultConfig` (part_001, lines 31-36) with the default environment
values. -/
def defaultConfig : ScoringConfig :=
  { apolloWeight := 1 / 2, zoomInfoWeight := 1 / 2, decayDays := 30,
    spikeThresholdPercent := 25 }

/-- Milliseconds per day (`1000 * 60 * 60 * 24`). -/
def msPerDay : ℚ := 1000 * 60 * 60 * 24

/-- `calculateDecay` (part_001, lines 75-81). -/
def calculateDecay (now : ℚ) (signalDate : ℚ) (decayDays : ℚ) : ℚ :=
  let daysDiff := (now - signalDate) / msPerDay
  if daysDiff ≤ 0 then 1
  else if decayDays ≤ daysDiff then 0
  else 1 - daysDiff / decayDays

/-- `calculateSourceScore` (part_001, lines 144-158): decay-weighted mean of
signal strengths, capped at 100. -/
def calculateSourceScore (now : ℚ) (signals : List IntentSignal)
    (decayDays : ℚ) : ℚ :=
  if signals.isEmpty then 0
  else
    let weightedSum := (signals.map (fun s =>
      s.signalStrength * calculateDecay now s.timestamp decayDays)).sum
    let totalWeight := (signals.map (fun s =>
      calculateDecay now s.timestamp decayDays)).sum
    if totalWeight = 0 then 0
    else min 100 (weightedSum / totalWeight)

/-- `TopicScore` (models/types.ts); `sources` is `Array.from` of the
insertion-ordered `Set`. -/
structure TopicScore where
  topic : String
  score : ℤ
  sources : List Source
  deriving Repr, DecidableEq

/-- `Set.add` on an insertion-ordered set. -/
def insertSourceUnique (l : List Source) (s : Source) : List Source :=
  if l.contains s then l else l ++ [s]

/-- `calculateTopTopics` (part_001, lines 163-186).  The `Map` accumulating
per-topic totals is an insertion-ordered association list.
`Array.prototype.sort` is stable and the comparator
`(a, b) => b.score - a.score` is a total preorder on scores, so every stable
sort produces the same list; it is modelled by a stable insertion sort with
the relation `b.score ≤ a.score`. -/
def calculateTopTopics (signals : List IntentSignal) : List TopicScore :=
  let topicMap := signals.foldl (fun acc s =>
    match assocGet acc s.topic with
    | some d => assocSet acc s.topic
        (d.1 + s.signalStrength, insertSourceUnique d.2 s.source)
    | none => assocSet acc s.topic (s.signalStrength, [s.source]))
    ([] : List (String × (ℚ × List Source)))
  let topics := topicMap.map (fun p =>
    { topic := p.1,
      score := min 100 (jsRound (p.2.1 /
        ((signals.filter (fun s => s.topic == p.1)).length : ℚ))),
      sources := p.2.2 : TopicScore })
  (topics.insertionSort (fun a b => b.score ≤ a.score)).take 5

/-- Score trend. -/
inductive Trend where
  | increasing : Trend
  | stable : Trend
  | decreasing : Trend
  deriving Repr, DecidableEq

/-- `determineTrend` (part_001, lines 191-200). -/
def determineTrend (currentScore : ℤ) (previousScore : Option ℤ) : Trend :=
  match previousScore with
  | none => .stable
  | some prev =>
    let diff := currentScore - prev
    if diff > 5 then .increasing
    else if diff < -5 then .decreasing
    else .stable

/-- `checkForSpike` (part_001, lines 205-213). -/
def checkForSpike (currentScore : ℤ) (previousScore : Option ℤ)
    (thresholdPercent : ℚ) : Bool :=
  match previousScore with
  | none => false
  | some prev =>
    if prev = 0 then false
    else
      let percentIncrease := (((currentScore : ℚ) - (prev : ℚ)) / (prev : ℚ)) * 100
      decide (thresholdPercent ≤ percentIncrease)

/-- `UnifiedIntentScore` (models/types.ts); `lastUpdated` holds the ambient
time of computation. -/
structure UnifiedIntentScore where
  companyId : String
  hubspotCompanyId : Option String
  companyName : String
  domain : Option String
  overallScore : ℤ
  apolloScore : ℤ
  zoomInfoScore : ℤ
  topTopics : List TopicScore
  signalCount : ℕ
  lastUpdated : ℚ
  trend : Trend
  isSpike : Bool
  deriving Repr

/-- The module-level mutable state of the scoring service: `signalStore` and
`scoreCache` (part_001, lines 11-12). -/
structure ScoreState where
  signalStore : List (String × List IntentSignal)
  scoreCache : List (String × UnifiedIntentScore)

/-- `addIntentSignal` (part_001, lines 41-46). -/
def addIntentSignal (signal : IntentSignal) (st : ScoreState) : ScoreState :=
  let existing := (assocGet st.signalStore signal.companyId).getD []
  { st with signalStore :=
      assocSet st.signalStore signal.companyId (existing ++ [signal]) }

/-- `getSignalsForCompany` (part_001, lines 60-62). -/
def getSignalsForCompany (st : ScoreState) (companyId : String) :
    List IntentSignal :=
  (assocGet st.signalStore companyId).getD []

/-- The score record built by `calculateUnifiedScore` (part_001, lines
93-135) from the entity's signals and the previously cached overall score:
per-source decayed scores, weighted overall score, top topics, trend and
spike flags.  `signals[0]?.companyName || 'Unknown'` and
`signals.find((s) => s.domain)?.domain` use JavaScript truthiness (an empty
string is falsy). -/
def unifiedScoreFor (now : ℚ) (companyId : String) (config : ScoringConfig)
    (signals : List IntentSignal) (previousOverall : Option ℤ) :
    UnifiedIntentScore :=
  let apolloSignals := signals.filter (fun s => s.source == Source.apollo)
  let zoomInfoSignals := signals.filter (fun s => s.source == Source.zoominfo)
  let apolloScore := calculateSourceScore now apolloSignals config.decayDays
  let zoomInfoScore := calculateSourceScore now zoomInfoSignals config.decayDays
  let overallScore := jsRound (apolloScore * config.apolloWeight +
    zoomInfoScore * config.zoomInfoWeight)
  let companyName :=
    match signals.head? with
    | some s => if s.companyName = "" then "Unknown" else s.companyName
    | none => "Unknown"
  let domain := (signals.find? (fun s => s.domain.getD "" ≠ "")).bind
    (fun s => s.domain)
  { companyId := companyId,
    hubspotCompanyId := none,
    companyName := companyName,
    domain := domain,
    overallScore := overallScore,
    apolloScore := jsRound apolloScore,
    zoomInfoScore := jsRound zoomInfoScore,
    topTopics := calculateTopTopics signals,
    signalCount := signals.length,
    lastUpdated := now,
    trend := determineTrend overallScore previousOverall,
    isSpike := checkForSpike overallScore previousOverall
      config.spikeThresholdPercent }

/-- `calculateUnifiedScore` (part_001, lines 86-139): absent when the entity
has no signals; otherwise computes the unified score, replaces the cached
baseline with it, and returns it. -/
def calculateUnifiedScore (now : ℚ) (companyId : String)
    (config : ScoringConfig) (st : ScoreState) :
    Option UnifiedIntentScore × ScoreState :=
  let signals := getSignalsForCompany st companyId
  if signals.isEmpty then (none, st)
  else
    let previousOverall :=
      (assocGet st.scoreCache companyId).map (fun s => s.overallScore)
    let score := unifiedScoreFor now companyId config signals previousOverall
    (some score,
     { st with scoreCache := assocSet st.scoreCache companyId score })

/-! ### Rule evaluator: ICP and persona matching (src/unnamed/part_000) -/

/-- Criterion operator (`'equals' | 'contains' | 'range' | 'in'`); `in` is a
reserved word, rendered `isIn`. -/
inductive ICPOperator where
  | equals : ICPOperator
  | contains : ICPOperator
  | range : ICPOperator
  | isIn : ICPOperator
  deriving Repr, DecidableEq

/-- `ICPCriterionConfig` (part_000, lines 19-27). -/
structure ICPCriterionConfig where
  name : String
  field : String
  weight : ℚ
  operator : ICPOperator
  value : JSVal
  minValue : Option ℚ := none
  maxValue : Option ℚ := none
  deriving Repr

/-- `ICPProfile` (part_000, lines 11-14). -/
structure ICPProfile where
  name : String
  criteria : List ICPCriterionConfig
  deriving Repr

/-- `Number.MIN_SAFE_INTEGER` = −(2^53 − 1). -/
def minSafeInteger : ℚ := -9007199254740991

/-- `Number.MAX_SAFE_INTEGER` = 2^53 − 1. -/
def maxSafeInteger : ℚ := 9007199254740991

/-- `String.prototype.toLowerCase()`, character by character. -/
def jsToLower (s : String) : String := String.mk (s.data.map Char.toLower)

/-- Does `sub` occur at the start of `l`? -/
def listStartsWith : List Char → List Char → Bool
  | _, [] => true
  | [], _ :: _ => false
  | a :: l, b :: m => a == b && listStartsWith l m

/-- Does `sub` occur contiguously anywhere in `l`? -/
def listHasInfix : List Char → List Char → Bool
  | [], sub => sub.isEmpty
  | a :: l, sub => listStartsWith (a :: l) sub || listHasInfix l sub

/-- `String.prototype.includes(sub)`: substring test (the pattern occurs as
a contiguous infix of the receiver). -/
def jsIncludes (s sub : String) : Bool := listHasInfix s.data sub.data

/-- JavaScript truthiness. -/
def jsTruthy : JSVal → Bool
  | .vUndefined => false
  | .vNull => false
  | .vBool b => b
  | .vNum q => decide (q ≠ 0)
  | .vStr s => decide (s ≠ "")
  | .vArr _ => true
  | .vObj _ => true

/-- `v || fallback`. -/
def jsOrVal (v fallback : JSVal) : JSVal := if jsTruthy v then v else fallback

/-- `evaluateCriterion` (part_000, lines 232-270). -/
def evaluateCriterion (value : JSVal) (criterion : ICPCriterionConfig) :
    Bool :=
  if isUndef value || isNullV value then false
  else
    match criterion.operator with
    | .equals => strictEq value criterion.value
    | .contains =>
      match value, criterion.value with
      | .vStr s, .vStr sub => jsIncludes (jsToLower s) (jsToLower sub)
      | _, _ => false
    | .range =>
      match value with
      | .vNum q =>
        let lo := criterion.minValue.getD minSafeInteger
        let hi := criterion.maxValue.getD maxSafeInteger
        decide (lo ≤ q ∧ q ≤ hi)
      | _ => false
    | .isIn =>
      match criterion.value with
      | .vArr vs => vs.any (fun v =>
          match v, value with
          | .vStr vs', .vStr s => jsToLower s == jsToLower vs'
          | _, _ => strictEq value v)
      | _ => false

/-- `ICPCriterion` result entry (models/types.ts); actual/expected values
kept raw. -/
structure ICPCriterion where
  name : String
  weight : ℚ
  matched : Bool
  actualValue : JSVal
  expectedValue : JSVal
  deriving Repr

/-- ICP tier. -/
inductive Tier where
  | A : Tier
  | B : Tier
  | C : Tier
  | D : Tier
  deriving Repr, DecidableEq

/-- `ICPMatch` (models/types.ts). -/
structure ICPMatch where
  companyId : JSVal
  hubspotCompanyId : JSVal
  matchScore : ℤ
  matchedCriteria : List ICPCriterion
  unmatchedCriteria : List ICPCriterion
  tier : Tier
  deriving Repr

/-- `determineTier` (part_000, lines 275-280). -/
def determineTier (score : ℤ) : Tier :=
  if score ≥ 80 then .A
  else if score ≥ 60 then .B
  else if score ≥ 40 then .C
  else .D

/-- Accumulator of the criterion loop in `calculateICPMatch`. -/
structure ICPAcc where
  matchedCriteria : List ICPCriterion
  unmatchedCriteria : List ICPCriterion
  totalWeight : ℚ
  matchedWeight : ℚ

/-- One iteration of the criterion loop (part_000, lines 193-212). -/
def icpStep (companyData : JSRecord) (acc : ICPAcc)
    (criterion : ICPCriterionConfig) : ICPAcc :=
  let fieldValue := jsGetR companyData criterion.field
  let matched := evaluateCriterion fieldValue criterion
  let criterionResult : ICPCriterion :=
    { name := criterion.name, weight := criterion.weight, matched := matched,
      actualValue := fieldValue, expectedValue := criterion.value }
  if matched then
    { acc with matchedCriteria := acc.matchedCriteria ++ [criterionResult],
               totalWeight := acc.totalWeight + criterion.weight,
               matchedWeight := acc.matchedWeight + criterion.weight }
  else
    { acc with unmatchedCriteria := acc.unmatchedCriteria ++ [criterionResult],
               totalWeight := acc.totalWeight + criterion.weight }

/-- `calculateICPMatch` (part_000, lines 183-227). -/
def calculateICPMatch (companyData : JSRecord) (profile : ICPProfile) :
    ICPMatch :=
  let companyId := jsOrVal (jsGetR companyData "id") (.vStr "unknown")
  let acc := profile.criteria.foldl (icpStep companyData)
    { matchedCriteria := [], unmatchedCriteria := [],
      totalWeight := 0, matchedWeight := 0 }
  let matchScore :=
    if acc.totalWeight > 0 then jsRound (acc.matchedWeight / acc.totalWeight * 100)
    else 0
  { companyId := companyId,
    hubspotCompanyId := jsGetR companyData "hubspotId",
    matchScore := matchScore,
    matchedCriteria := acc.matchedCriteria,
    unmatchedCriteria := acc.unmatchedCriteria,
    tier := determineTier matchScore }

/-- Persona operator (`'equals' | 'contains' | 'in'`). -/
inductive PersonaOperator where
  | equals : PersonaOperator
  | contains : PersonaOperator
  | isIn : PersonaOperator
  deriving Repr, DecidableEq

/-- `PersonaAttributeConfig` (part_000, lines 40-46). -/
structure PersonaAttributeConfig where
  name : String
  field : String
  weight : ℚ
  operator : PersonaOperator
  values : List String
  deriving Repr

/-- `PersonaProfile` (part_000, lines 32-35). -/
structure PersonaProfile where
  name : String
  attributes : List PersonaAttributeConfig
  deriving Repr

/-- `PersonaAttribute` result entry (models/types.ts); `value` records
`(fieldValue as string) || ''`. -/
structure PersonaAttribute where
  name : String
  value : JSVal
  weight : ℚ
  matched : Bool
  deriving Repr

/-- `evaluatePersonaAttribute` (part_000, lines 364-387): any non-string
actual value is unmatched; all three operators compare case-insensitively
against the configured value list. -/
def evaluatePersonaAttribute (value : JSVal)
    (attr : PersonaAttributeConfig) : Bool :=
  match value with
  | .vStr s =>
    let lowerValue := jsToLower s
    match attr.operator with
    | .equals => attr.values.any (fun v => lowerValue == jsToLower v)
    | .contains => attr.values.any (fun v => jsIncludes lowerValue (jsToLower v))
    | .isIn => attr.values.any (fun v => lowerValue == jsToLower v)
  | _ => false

/-- Accumulator of the attribute loop in `evaluatePersonaProfile`. -/
structure PersonaAcc where
  attributes : List PersonaAttribute
  totalWeight : ℚ
  matchedWeight : ℚ

/-- `evaluatePersonaProfile` (part_000, lines 329-359): weighted score and
per-attribute detail of one profile. -/
def evaluatePersonaProfile (contactData : JSRecord)
    (profile : PersonaProfile) : ℤ × List PersonaAttribute :=
  let acc := profile.attributes.foldl (fun acc attr =>
    let fieldValue := jsGetR contactData attr.field
    let matched := evaluatePersonaAttribute fieldValue attr
    { attributes := acc.attributes ++
        [{ name := attr.name, value := jsOrVal fieldValue (.vStr ""),
           weight := attr.weight, matched := matched }],
      totalWeight := acc.totalWeight + attr.weight,
      matchedWeight :=
        acc.matchedWeight + (if matched then attr.weight else 0) : PersonaAcc })
    { attributes := [], totalWeight := 0, matchedWeight := 0 }
  let score :=
    if acc.totalWeight > 0 then jsRound (acc.matchedWeight / acc.totalWeight * 100)
    else 0
  (score, acc.attributes)

/-- `PersonaScore` (models/types.ts). -/
structure PersonaScore where
  contactId : JSVal
  hubspotContactId : JSVal
  email : JSVal
  personaType : String
  matchScore : ℤ
  attributes : List PersonaAttribute
  deriving Repr

/-- One iteration of the best-profile loop in `calculatePersonaScore`
(part_000, lines 298-303): replace the running best only on a strictly
greater score. -/
def personaBestStep (contactData : JSRecord)
    (best : Option (PersonaProfile × ℤ × List PersonaAttribute))
    (profile : PersonaProfile) :
    Option (PersonaProfile × ℤ × List PersonaAttribute) :=
  let r := evaluatePersonaProfile contactData profile
  match best with
  | none => some (profile, r.1, r.2)
  | some b => if r.1 > b.2.1 then some (profile, r.1, r.2) else some b

/-- `calculatePersonaScore` (part_000, lines 285-324). -/
def calculatePersonaScore (contactData : JSRecord)
    (profiles : List PersonaProfile) : PersonaScore :=
  let contactId := jsOrVal (jsGetR contactData "id") (.vStr "unknown")
  let email := jsOrVal (jsGetR contactData "email") (.vStr "")
  let bestMatch := profiles.foldl (personaBestStep contactData) none
  match bestMatch with
  | none =>
    { contactId := contactId,
      hubspotContactId := jsGetR contactData "hubspotId",
      email := email, personaType := "Unknown", matchScore := 0,
      attributes := [] }
  | some b =>
    { contactId := contactId,
      hubspotContactId := jsGetR contactData "hubspotId",
      email := email, personaType := b.1.name, matchScore := b.2.1,
      attributes := b.2.2 }

/-! ### Basic facts about `deepEqual` -/

@[simp] theorem deepEqual_undefined_undefined :
    deepEqual .vUndefined .vUndefined = true := by
  simp [deepEqual, strictEq]

@[simp] theorem deepEqual_null_null : deepEqual .vNull .vNull = true := by
  simp [deepEqual, strictEq]

@[simp] theorem deepEqual_undefined_null :
    deepEqual .vUndefined .vNull = false := by
  simp [deepEqual, strictEq, isUndef, isNullV]

@[simp] theorem deepEqual_null_undefined :
    deepEqual .vNull .vUndefined = false := by
  simp [deepEqual, strictEq, isUndef, isNullV]

theorem deepEqual_undefined_left {v : JSVal} (h : v ≠ .vUndefined) :
    deepEqual .vUndefined v = false := by
  cases v <;> simp [deepEqual, strictEq, isUndef, isNullV] <;>
    exact absurd rfl h

theorem deepEqual_undefined_right {v : JSVal} (h : v ≠ .vUndefined) :
    deepEqual v .vUndefined = false := by
  cases v <;> simp [deepEqual, strictEq, isUndef, isNullV] <;>
    exact absurd rfl h

theorem deepEqual_null_left {v : JSVal} (h : v ≠ .vNull) :
    deepEqual .vNull v = false := by
  cases v <;> simp [deepEqual, strictEq, isUndef, isNullV] <;>
    exact absurd rfl h

theorem deepEqual_null_right {v : JSVal} (h : v ≠ .vNull) :
    deepEqual v .vNull = false := by
  cases v <;> simp [deepEqual, strictEq, isUndef, isNullV] <;>
    exact absurd rfl h

/-! ### Claim C1 -/

/-- C1 counterexample: the claim says a trackable field whose old value is
absent (`undefined`) and whose new value is `null` produces no
`FieldChange`; but `deepEqual` distinguishes `undefined` from `null` (the
guard `a === undefined || b === undefined` fires before the null guard), so
`detectChanges` on two snapshots differing only in `employeeCount` being
absent vs `null` emits exactly that `FieldChange`. -/
theorem detectChanges_emits_on_undefined_vs_null :
    detectChanges [] [("employeeCount", JSVal.vNull)] =
      [{ field := "employeeCount", oldValue := .vUndefined,
         newValue := .vNull }] := by
  simp +decide [detectChanges, trackableFields, jsGetR, assocGet]

/-- C1 (amended): in the enrichment delta deep-comparison used by
`storeSnapshot`, an absent (`undefined`) old value and a `null` new value
are treated as distinct, so a `FieldChange` IS emitted for every trackable
field differing only by `undefined` versus `null`; `undefined` and `null`
each equal only themselves and remain distinct from every concrete value. -/
theorem detectChanges_undefined_null_distinct :
    deepEqual .vUndefined .vNull = false ∧
    deepEqual .vNull .vUndefined = false ∧
    (∀ v : JSVal, v ≠ .vUndefined →
      deepEqual .vUndefined v = false ∧ deepEqual v .vUndefined = false) ∧
    (∀ v : JSVal, v ≠ .vNull →
      deepEqual .vNull v = false ∧ deepEqual v .vNull = false) ∧
    (∀ (oldData newData : JSRecord) (field : String),
      field ∈ trackableFields →
      jsGetR oldData field = .vUndefined → jsGetR newData field = .vNull →
      ({ field := field, oldValue := .vUndefined, newValue := .vNull } :
        FieldChange) ∈ detectChanges oldData newData) := by
  refine ⟨by simp, by simp, ?_, ?_, ?_⟩
  · exact fun v h => ⟨deepEqual_undefined_left h, deepEqual_undefined_right h⟩
  · exact fun v h => ⟨deepEqual_null_left h, deepEqual_null_right h⟩
  · intro oldData newData field hmem hold hnew
    simp only [detectChanges, List.mem_filterMap]
    refine ⟨field, hmem, ?_⟩
    rw [hold, hnew]
    simp

/-- C1 amended-claim witness at a concrete input. -/
theorem detectChanges_undefined_null_distinct_witness :
    ({ field := "industry", oldValue := .vUndefined, newValue := .vNull } :
      FieldChange) ∈ detectChanges [("industry", JSVal.vUndefined)]
        [("industry", JSVal.vNull)] :=
  detectChanges_undefined_null_distinct.2.2.2.2
    [("industry", JSVal.vUndefined)] [("industry", JSVal.vNull)]
    "industry" (by decide) rfl rfl

/-! ### Claim C2 -/

/-- A range criterion with both bounds absent, as the claim describes. -/
def rangeCriterionNoBounds : ICPCriterionConfig :=
  { name := "Range", field := "value", weight := 1, operator := .range,
    value := .vNull }

/-- C2 counterexample: the claim says a missing bound defaults to plus or
minus infinity, so any numeric value matches when both bounds are absent;
but the code defaults to `Number.MIN_SAFE_INTEGER` / `MAX_SAFE_INTEGER`, so
the numeric value `9007199254740992 = 2^53` (just above
`MAX_SAFE_INTEGER`) fails a range criterion with no bounds. -/
theorem evaluateCriterion_unbounded_range_rejects_large :
    evaluateCriterion (.vNum 9007199254740992) rangeCriterionNoBounds
      = false := by
  have h : ¬(minSafeInteger ≤ (9007199254740992 : ℚ) ∧
      (9007199254740992 : ℚ) ≤ maxSafeInteger) := by
    norm_num [minSafeInteger, maxSafeInteger]
  simp [evaluateCriterion, rangeCriterionNoBounds, isUndef, isNullV, h]

/-- C2 (amended): for every criterion with operator `range`, the criterion
matches iff the actual value is numeric and lies within `[min, max]`, where
a missing `minValue` defaults to `Number.MIN_SAFE_INTEGER` (−(2^53 − 1)) and
a missing `maxValue` defaults to `Number.MAX_SAFE_INTEGER` (2^53 − 1) — not
to minus/plus infinity; any non-numeric actual value is unmatched. -/
theorem evaluateCriterion_range_spec (value : JSVal)
    (criterion : ICPCriterionConfig) (hop : criterion.operator = .range) :
    evaluateCriterion value criterion = true ↔
      ∃ q : ℚ, value = .vNum q ∧
        criterion.minValue.getD minSafeInteger ≤ q ∧
        q ≤ criterion.maxValue.getD maxSafeInteger := by
  unfold evaluateCriterion
  rw [hop]
  cases value <;> simp [isUndef, isNullV]

/-- C2 amended-claim witness at a concrete input. -/
theorem evaluateCriterion_range_spec_witness :
    evaluateCriterion (.vNum 500)
      { name := "Employee Count", field := "employeeCount", weight := 1 / 4,
        operator := .range, value := .vNull, minValue := some 50,
        maxValue := some 5000 } = true :=
  (evaluateCriterion_range_spec _ _ rfl).mpr
    ⟨500, rfl, by norm_num, by norm_num⟩

/-! ### Claim C5 -/

theorem checkForSpike_iff (currentScore : ℤ) (previousScore : Option ℤ)
    (thresholdPercent : ℚ) (hprev : ∀ p, previousScore = some p → 0 ≤ p) :
    checkForSpike currentScore previousScore thresholdPercent = true ↔
      ∃ p, previousScore = some p ∧ 0 < p ∧
        thresholdPercent ≤
          (((currentScore : ℚ) - (p : ℚ)) / (p : ℚ)) * 100 := by
  cases previousScore with
  | none => simp [checkForSpike]
  | some p =>
    have h0 := hprev p rfl
    by_cases hp : p = 0
    · subst hp
      simp [checkForSpike]
    · have hpos : (0 : ℤ) < p := lt_of_le_of_ne h0 (Ne.symm hp)
      simp [checkForSpike, hp, hpos]

/-- C5: for every computed score, `isSpike` is true iff a previous overall
score was cached, that previous score is strictly positive (given the
invariant that cached overall scores are nonnegative), and the percentage
increase `(new − previous)/previous × 100` is at least the configured spike
threshold percent; in particular `isSpike` is false when no previous score
is cached or the previous score is 0. -/
theorem unifiedScore_isSpike_iff (now : ℚ) (companyId : String)
    (config : ScoringConfig) (signals : List IntentSignal)
    (previousOverall : Option ℤ)
    (hprev : ∀ p, previousOverall = some p → 0 ≤ p) :
    (unifiedScoreFor now companyId config signals previousOverall).isSpike
        = true ↔
      ∃ p, previousOverall = some p ∧ 0 < p ∧
        config.spikeThresholdPercent ≤
          ((((unifiedScoreFor now companyId config signals
              previousOverall).overallScore : ℚ) - (p : ℚ)) / (p : ℚ)) * 100 := by
  exact checkForSpike_iff _ previousOverall _ hprev

/-- C5 witness at a concrete input: previous overall score 40, new 50,
threshold 25 percent, a 25 percent increase, flagged as a spike. -/
theorem unifiedScore_isSpike_iff_witness :
    (unifiedScoreFor 0 "c" defaultConfig
      [{ source := .apollo, companyId := "c", companyName := "Acme",
         domain := none, topic := "Cloud", signalStrength := 100,
         timestamp := 0 }] (some 40)).isSpike = true :=
  (unifiedScore_isSpike_iff 0 "c" defaultConfig _ (some 40)
      (by intro p hp; cases hp; norm_num)).mpr
    ⟨40, rfl, by norm_num, by
      simp +decide [unifiedScoreFor, calculateSourceScore, calculateDecay,
        msPerDay, jsRound, defaultConfig]
      norm_num⟩

/-! ### Claim C9 -/

/-- C9: appending a fully-decayed signal (age at least the decay window, for
a positive decay window) to a source's signal list leaves the per-source
score unchanged: a zero decay contributes to neither the numerator nor the
denominator of the weighted mean. -/
theorem calculateSourceScore_append_fully_decayed (now : ℚ)
    (signals : List IntentSignal) (s : IntentSignal) (decayDays : ℚ)
    (hpos : 0 < decayDays)
    (hage : decayDays ≤ (now - s.timestamp) / msPerDay) :
    calculateSourceScore now (signals ++ [s]) decayDays =
      calculateSourceScore now signals decayDays := by
  have hdecay : calculateDecay now s.timestamp decayDays = 0 := by
    unfold calculateDecay
    have h1 : ¬((now - s.timestamp) / msPerDay ≤ 0) := by
      intro hc
      exact absurd (le_trans hage hc) (not_le.mpr hpos)
    rw [if_neg h1, if_pos hage]
  unfold calculateSourceScore
  cases signals with
  | nil => simp [hdecay]
  | cons a l => simp [hdecay]

/-- C9 witness at a concrete input: a 31-day-old signal (decay window 30
days) does not move the score of a single fresh signal of strength 80. -/
theorem calculateSourceScore_append_fully_decayed_witness :
    calculateSourceScore 2678400000
      ([{ source := .apollo, companyId := "c", companyName := "Acme",
          domain := none, topic := "Cloud", signalStrength := 80,
          timestamp := 2678400000 }] ++
       [{ source := .apollo, companyId := "c", companyName := "Acme",
          domain := none, topic := "AI", signalStrength := 100,
          timestamp := 0 }]) 30 =
    calculateSourceScore 2678400000
      [{ source := .apollo, companyId := "c", companyName := "Acme",
         domain := none, topic := "Cloud", signalStrength := 80,
         timestamp := 2678400000 }] 30 :=
  calculateSourceScore_append_fully_decayed 2678400000 _ _ 30 (by norm_num)
    (by norm_num [msPerDay])

/-! ### Claim C10 -/

/-- C10: in persona evaluation every operator (`equals`, `contains`, `in`)
treats any non-string actual value (including absent, `null`, numeric and
boolean values) as unmatched, and all string comparisons are
case-insensitive against the configured value list (`equals` and `in` both
test lowercased equality against some list element; `contains` tests
lowercased substring containment of some list element). -/
theorem evaluatePersonaAttribute_spec (value : JSVal)
    (attr : PersonaAttributeConfig) :
    ((∀ s, value ≠ .vStr s) → evaluatePersonaAttribute value attr = false) ∧
    (∀ s, value = .vStr s →
      (attr.operator = .equals →
        (evaluatePersonaAttribute value attr = true ↔
          ∃ v ∈ attr.values, jsToLower s = jsToLower v)) ∧
      (attr.operator = .isIn →
        (evaluatePersonaAttribute value attr = true ↔
          ∃ v ∈ attr.values, jsToLower s = jsToLower v)) ∧
      (attr.operator = .contains →
        (evaluatePersonaAttribute value attr = true ↔
          ∃ v ∈ attr.values,
            jsIncludes (jsToLower s) (jsToLower v) = true))) := by
  constructor
  · intro h
    cases value <;> simp [evaluatePersonaAttribute]
    exact absurd rfl (h _)
  · intro s hv
    subst hv
    refine ⟨fun hop => ?_, fun hop => ?_, fun hop => ?_⟩ <;>
      simp [evaluatePersonaAttribute, hop, List.any_eq_true]

/-- C10 witness at concrete inputs: a numeric title never matches, and a
lowercased title matches the configured `CEO` value case-insensitively. -/
theorem evaluatePersonaAttribute_spec_witness :
    evaluatePersonaAttribute (.vNum 7)
      { name := "Title Level", field := "title", weight := 1 / 2,
        operator := .contains, values := ["CEO", "CTO"] } = false ∧
    evaluatePersonaAttribute (.vStr "acting ceo")
      { name := "Title Level", field := "title", weight := 1 / 2,
        operator := .contains, values := ["CEO", "CTO"] } = true :=
  ⟨(evaluatePersonaAttribute_spec (.vNum 7) _).1 (by intro s h; cases h),
   ((evaluatePersonaAttribute_spec (.vStr "acting ceo") _).2 "acting ceo"
      rfl).2.2 rfl |>.mpr ⟨"CEO", by simp, by decide⟩⟩

/-! ### Claim C4 -/

theorem detectChanges_def (o n : JSRecord) :
    detectChanges o n = trackableFields.filterMap (fun field =>
      if deepEqual (jsGetR o field) (jsGetR n field) then none
      else some { field := field, oldValue := jsGetR o field,
                  newValue := jsGetR n field }) := rfl

theorem detectChanges_eq_nil_iff (o n : JSRecord) :
    detectChanges o n = [] ↔
      ∀ f ∈ trackableFields,
        deepEqual (jsGetR o f) (jsGetR n f) = true := by
  rw [detectChanges_def]
  rw [List.filterMap_eq_nil]
  constructor
  · intro h f hf
    have h2 := h f hf
    by_cases hd : deepEqual (jsGetR o f) (jsGetR n f) = true
    · exact hd
    · rw [if_neg hd] at h2
      cases h2
  · intro h f hf
    rw [if_pos (h f hf)]

theorem detectChangesAux_map_field (o n : JSRecord) (l : List String) :
    (l.filterMap (fun field =>
      if deepEqual (jsGetR o field) (jsGetR n field) then none
      else some ({ field := field, oldValue := jsGetR o field,
                   newValue := jsGetR n field } : FieldChange))).map
        (fun c => c.field) =
      l.filter (fun f => !(deepEqual (jsGetR o f) (jsGetR n f))) := by
  induction l with
  | nil => rfl
  | cons f t ih =>
    by_cases hd : deepEqual (jsGetR o f) (jsGetR n f) = true
    · simp [List.filterMap_cons, List.filter_cons, hd, ih]
    · simp [List.filterMap_cons, List.filter_cons, hd, ih]

theorem detectChanges_map_field (o n : JSRecord) :
    (detectChanges o n).map (fun c => c.field) =
      trackableFields.filter
        (fun f => !(deepEqual (jsGetR o f) (jsGetR n f))) := by
  rw [detectChanges_def]
  exact detectChangesAux_map_field o n trackableFields

theorem detectChanges_mem_values (o n : JSRecord) :
    ∀ c ∈ detectChanges o n,
      c.oldValue = jsGetR o c.field ∧ c.newValue = jsGetR n c.field := by
  intro c hc
  rw [detectChanges_def] at hc
  obtain ⟨f, hf, hsome⟩ := List.mem_filterMap.mp hc
  by_cases hd : deepEqual (jsGetR o f) (jsGetR n f) = true
  · rw [if_pos hd] at hsome
    cases hsome
  · rw [if_neg hd] at hsome
    cases hsome
    exact ⟨rfl, rfl⟩

/-- C4: every snapshot written via `storeSnapshot` is stored unconditionally
(replacing any previous snapshot under its `(entityType, entityId, source)`
key); the result is absent when no snapshot existed for the key; when one
existed, the result is a delta iff at least one trackable field differs
(under `deepEqual`), and the delta's `FieldChange` entries appear in
trackable-field declaration order (their field names are exactly the
declaration-ordered differing fields) and carry the stored old value and the
incoming new value. -/
theorem storeEnrichmentData_spec (now : String) (enrichment : EnrichmentData)
    (store : EnrichmentStore) :
    (storeEnrichmentData now enrichment store).2 =
      assocSet store (getEnrichmentKey enrichment.entityType
        enrichment.entityId enrichment.source) enrichment ∧
    (assocGet store (getEnrichmentKey enrichment.entityType
        enrichment.entityId enrichment.source) = none →
      (storeEnrichmentData now enrichment store).1 = none) ∧
    (∀ existing, assocGet store (getEnrichmentKey enrichment.entityType
        enrichment.entityId enrichment.source) = some existing →
      ((storeEnrichmentData now enrichment store).1 = none ↔
        ∀ f ∈ trackableFields,
          deepEqual (jsGetR existing.data f) (jsGetR enrichment.data f)
            = true) ∧
      (∀ δ, (storeEnrichmentData now enrichment store).1 = some δ →
        δ.changes.map (fun c => c.field) =
          trackableFields.filter (fun f =>
            !(deepEqual (jsGetR existing.data f) (jsGetR enrichment.data f))) ∧
        ∀ c ∈ δ.changes,
          c.oldValue = jsGetR existing.data c.field ∧
          c.newValue = jsGetR enrichment.data c.field)) := by
  cases hget : assocGet store (getEnrichmentKey enrichment.entityType
      enrichment.entityId enrichment.source) with
  | none =>
    refine ⟨?_, fun _ => ?_, fun existing hex => Option.noConfusion hex⟩
    · simp [storeEnrichmentData, hget]
    · simp [storeEnrichmentData, hget]
  | some ex =>
    have hstore : (storeEnrichmentData now enrichment store).2 =
        assocSet store (getEnrichmentKey enrichment.entityType
          enrichment.entityId enrichment.source) enrichment := by
      by_cases hc : (detectChanges ex.data enrichment.data).isEmpty = true <;>
        simp [storeEnrichmentData, hget, hc]
    refine ⟨hstore, fun h => Option.noConfusion h, fun existing hex => ?_⟩
    cases hex
    by_cases hc : (detectChanges ex.data enrichment.data).isEmpty = true
    · have hr : (storeEnrichmentData now enrichment store).1 = none := by
        simp [storeEnrichmentData, hget, hc]
      constructor
      · rw [hr, ← detectChanges_eq_nil_iff]
        simp [List.isEmpty_iff.mp hc]
      · intro δ hδ
        rw [hr] at hδ
        cases hδ
    · have hr : (storeEnrichmentData now enrichment store).1 =
          some { entityType := enrichment.entityType,
                 entityId := enrichment.entityId,
                 hubspotId := jsGetR enrichment.data "hubspotId",
                 source := enrichment.source,
                 changes := detectChanges ex.data enrichment.data,
                 timestamp := now } := by
        simp [storeEnrichmentData, hget, hc]
      constructor
      · rw [hr, ← detectChanges_eq_nil_iff]
        constructor
        · intro h
          cases h
        · intro hnil
          exact absurd (List.isEmpty_iff.mpr hnil) hc
      · intro δ hδ
        rw [hr] at hδ
        cases hδ
        exact ⟨detectChanges_map_field ex.data enrichment.data,
          detectChanges_mem_values ex.data enrichment.data⟩

/-- C4 witness: storing a first snapshot for a fresh key yields no delta. -/
theorem storeEnrichmentData_spec_witness :
    (storeEnrichmentData "t0"
      { entityType := .company, entityId := "c1", source := .apollo,
        data := [("industry", .vStr "Tech")], timestamp := "t0" } []).1
      = none :=
  (storeEnrichmentData_spec "t0"
    { entityType := .company, entityId := "c1", source := .apollo,
      data := [("industry", .vStr "Tech")], timestamp := "t0" } []).2.1 rfl

/-! ### Claim C7 -/

/-- Shorthand: does criterion `c` match `companyData`? -/
def icpMatchedP (companyData : JSRecord) (c : ICPCriterionConfig) : Bool :=
  evaluateCriterion (jsGetR companyData c.field) c

/-- The per-criterion result record pushed by the loop. -/
def icpResult (companyData : JSRecord) (c : ICPCriterionConfig) :
    ICPCriterion :=
  { name := c.name, weight := c.weight,
    matched := evaluateCriterion (jsGetR companyData c.field) c,
    actualValue := jsGetR companyData c.field, expectedValue := c.value }

/-- Total criterion weight of a profile. -/
def icpTotalWeight (profile : ICPProfile) : ℚ :=
  (profile.criteria.map (fun c => c.weight)).sum

/-- Total weight of the matched criteria. -/
def icpMatchedWeight (companyData : JSRecord) (profile : ICPProfile) : ℚ :=
  ((profile.criteria.filter (icpMatchedP companyData)).map
    (fun c => c.weight)).sum

theorem icpFold_spec (d : JSRecord) (l : List ICPCriterionConfig)
    (acc : ICPAcc) :
    (l.foldl (icpStep d) acc).totalWeight =
        acc.totalWeight + (l.map (fun c => c.weight)).sum ∧
    (l.foldl (icpStep d) acc).matchedWeight =
        acc.matchedWeight +
          ((l.filter (icpMatchedP d)).map (fun c => c.weight)).sum ∧
    (l.foldl (icpStep d) acc).matchedCriteria =
        acc.matchedCriteria ++ (l.filter (icpMatchedP d)).map (icpResult d) ∧
    (l.foldl (icpStep d) acc).unmatchedCriteria =
        acc.unmatchedCriteria ++
          (l.filter (fun c => !(icpMatchedP d c))).map (icpResult d) := by
  induction l generalizing acc with
  | nil => simp
  | cons c t ih =>
    obtain ⟨h1, h2, h3, h4⟩ := ih (icpStep d acc c)
    simp only [List.foldl_cons]
    rw [h1, h2, h3, h4]
    by_cases hm : icpMatchedP d c = true
    · have hm' : evaluateCriterion (jsGetR d c.field) c = true := hm
      simp [icpStep, hm', icpResult, List.filter_cons, hm, add_assoc,
        List.append_assoc]
    · have hm' : evaluateCriterion (jsGetR d c.field) c = false := by
        simpa [icpMatchedP] using hm
      simp [icpStep, hm', icpResult, List.filter_cons, hm, add_assoc,
        List.append_assoc]

theorem evaluateCriterion_undefined (c : ICPCriterionConfig) :
    evaluateCriterion .vUndefined c = false := by
  simp [evaluateCriterion, isUndef]

/-- C7: ICP classification computes
`score = round(100 × matchedWeight / totalWeight)` over the profile's
criteria (score 0 when the total weight is 0, with no error), maps the score
to a tier by `score ≥ 80 ⇒ A`, `≥ 60 ⇒ B`, `≥ 40 ⇒ C`, else `D`, and on an
attribute map missing every criterion field yields score 0, tier `D`, no
matched criteria, and every criterion unmatched (in declaration order). -/
theorem calculateICPMatch_spec (companyData : JSRecord)
    (profile : ICPProfile) (hw : 0 ≤ icpTotalWeight profile) :
    (icpTotalWeight profile = 0 →
      (calculateICPMatch companyData profile).matchScore = 0) ∧
    (icpTotalWeight profile ≠ 0 →
      (calculateICPMatch companyData profile).matchScore =
        jsRound (100 * icpMatchedWeight companyData profile /
          icpTotalWeight profile)) ∧
    ((calculateICPMatch companyData profile).tier =
      (if 80 ≤ (calculateICPMatch companyData profile).matchScore then Tier.A
       else if 60 ≤ (calculateICPMatch companyData profile).matchScore then
         Tier.B
       else if 40 ≤ (calculateICPMatch companyData profile).matchScore then
         Tier.C
       else Tier.D)) ∧
    ((∀ c ∈ profile.criteria, jsGetR companyData c.field = .vUndefined) →
      (calculateICPMatch companyData profile).matchScore = 0 ∧
      (calculateICPMatch companyData profile).tier = Tier.D ∧
      (calculateICPMatch companyData profile).matchedCriteria = [] ∧
      (calculateICPMatch companyData profile).unmatchedCriteria.map
          (fun c => c.name) =
        profile.criteria.map (fun c => c.name)) := by
  obtain ⟨h1, h2, h3, h4⟩ := icpFold_spec companyData profile.criteria
    { matchedCriteria := [], unmatchedCriteria := [],
      totalWeight := 0, matchedWeight := 0 }
  have hms : (calculateICPMatch companyData profile).matchScore =
      if icpTotalWeight profile > 0 then
        jsRound (icpMatchedWeight companyData profile /
          icpTotalWeight profile * 100)
      else 0 := by
    simp only [calculateICPMatch, h1, h2, zero_add]
    rfl
  have htier : (calculateICPMatch companyData profile).tier =
      determineTier (calculateICPMatch companyData profile).matchScore := rfl
  refine ⟨?_, ?_, ?_, ?_⟩
  · intro h0
    rw [hms, h0]
    simp
  · intro hne
    have hpos : 0 < icpTotalWeight profile := lt_of_le_of_ne hw (Ne.symm hne)
    rw [hms, if_pos hpos]
    congr 1
    ring
  · rw [htier]
    simp [determineTier, ge_iff_le]
  · intro hmiss
    have hfilter : profile.criteria.filter (icpMatchedP companyData) = [] := by
      rw [List.filter_eq_nil]
      intro c hc
      simp [icpMatchedP, hmiss c hc, evaluateCriterion_undefined]
    have hmw : icpMatchedWeight companyData profile = 0 := by
      simp [icpMatchedWeight, hfilter]
    have hscore : (calculateICPMatch companyData profile).matchScore = 0 := by
      rw [hms, hmw]
      by_cases hp : icpTotalWeight profile > 0
      · rw [if_pos hp]
        norm_num [jsRound]
      · rw [if_neg hp]
    refine ⟨hscore, ?_, ?_, ?_⟩
    · rw [htier, hscore]
      rfl
    · have : (calculateICPMatch companyData profile).matchedCriteria =
          [] ++ (profile.criteria.filter (icpMatchedP companyData)).map
            (icpResult companyData) := by
        simp only [calculateICPMatch]
        exact h3
      rw [this, hfilter]
      rfl
    · have hu : (calculateICPMatch companyData profile).unmatchedCriteria =
          [] ++ (profile.criteria.filter (fun c =>
            !(icpMatchedP companyData c))).map (icpResult companyData) := by
        simp only [calculateICPMatch]
        exact h4
      rw [hu]
      have hall : profile.criteria.filter (fun c =>
          !(icpMatchedP companyData c)) = profile.criteria := by
        rw [List.filter_eq_self]
        intro c hc
        simp [icpMatchedP, hmiss c hc, evaluateCriterion_undefined]
      rw [hall]
      simp [icpResult]

/-- A one-criterion profile used as a concrete witness input. -/
def singleCriterionProfile : ICPProfile :=
  { name := "P",
    criteria := [{ name := "Industry", field := "industry", weight := 1,
                   operator := .equals, value := .vStr "Tech" }] }

/-- C7 witness: the empty attribute map misses every field of a one-criterion
profile, giving score 0 and tier D. -/
theorem calculateICPMatch_spec_witness :
    (calculateICPMatch [] singleCriterionProfile).matchScore = 0 ∧
    (calculateICPMatch [] singleCriterionProfile).tier = Tier.D :=
  have h := calculateICPMatch_spec [] singleCriterionProfile
    (by norm_num [icpTotalWeight, singleCriterionProfile])
  have h4 := h.2.2.2 (by
    intro c hc
    simp [singleCriterionProfile] at hc
    subst hc
    rfl)
  ⟨h4.1, h4.2.1⟩

/-! ### Claim C8 -/

/-- Score of one persona profile against a contact. -/
def personaScoreOf (d : JSRecord) (p : PersonaProfile) : ℤ :=
  (evaluatePersonaProfile d p).1

theorem personaBestFold_spec (d : JSRecord) (l : List PersonaProfile)
    (b : PersonaProfile × ℤ × List PersonaAttribute) :
    ∃ c, l.foldl (personaBestStep d) (some b) = some c ∧
      b.2.1 ≤ c.2.1 ∧
      (∀ p ∈ l, personaScoreOf d p ≤ c.2.1) ∧
      (c = b ∨ ∃ i, ∃ hi : i < l.length,
        c = (l.get ⟨i, hi⟩, evaluatePersonaProfile d (l.get ⟨i, hi⟩)) ∧
        b.2.1 < c.2.1 ∧
        ∀ j, ∀ hj : j < l.length, j < i →
          personaScoreOf d (l.get ⟨j, hj⟩) < c.2.1) := by
  induction l generalizing b with
  | nil => exact ⟨b, rfl, le_refl _, by simp, Or.inl rfl⟩
  | cons p t ih =>
    by_cases hgt : (evaluatePersonaProfile d p).1 > b.2.1
    · have hstep : personaBestStep d (some b) p =
          some (p, evaluatePersonaProfile d p) := by
        simp [personaBestStep, hgt]
      obtain ⟨c, hc, hble, hub, hdisj⟩ := ih (p, evaluatePersonaProfile d p)
      refine ⟨c, ?_, ?_, ?_, ?_⟩
      · simpa [List.foldl_cons, hstep] using hc
      · exact le_trans (le_of_lt hgt) hble
      · intro q hq
        rcases List.mem_cons.mp hq with rfl | hq'
        · exact hble
        · exact hub q hq'
      · rcases hdisj with hcb | ⟨i, hi, hceq, hlt, hprev⟩
        · right
          refine ⟨0, by simp, ?_, ?_, ?_⟩
          · rw [hcb]
            rfl
          · rw [hcb]
            exact hgt
          · intro j hj hj0
            omega
        · right
          refine ⟨i + 1, by simpa using Nat.succ_lt_succ hi, ?_, ?_, ?_⟩
          · exact hceq
          · exact lt_trans hgt hlt
          · intro j hj hjlt
            cases j with
            | zero => exact hlt
            | succ k =>
              have hk : k < i := by omega
              have hkl : k < t.length := by
                simp at hj
                omega
              exact hprev k hkl hk
    · push_neg at hgt
      have hstep : personaBestStep d (some b) p = some b := by
        simp [personaBestStep]
        intro hcon
        exact absurd hcon (not_lt.mpr hgt)
      obtain ⟨c, hc, hble, hub, hdisj⟩ := ih b
      refine ⟨c, by simpa [List.foldl_cons, hstep] using hc, hble, ?_, ?_⟩
      · intro q hq
        rcases List.mem_cons.mp hq with rfl | hq'
        · exact le_trans hgt hble
        · exact hub q hq'
      · rcases hdisj with hcb | ⟨i, hi, hceq, hlt, hprev⟩
        · exact Or.inl hcb
        · right
          refine ⟨i + 1, by simpa using Nat.succ_lt_succ hi, hceq, hlt, ?_⟩
          intro j hj hjlt
          cases j with
          | zero => exact lt_of_le_of_lt hgt hlt
          | succ k =>
            have hk : k < i := by omega
            have hkl : k < t.length := by
              simp at hj
              omega
            exact hprev k hkl hk

/-- C8: persona classification evaluates the configured profiles in declared
order and returns a profile achieving the strictly highest score, with the
first-encountered profile winning ties (replacement only on strictly greater
score); it always returns a classification, and with zero configured
profiles it returns the null classification `Unknown` with score 0 and no
attribute detail. -/
theorem calculatePersonaScore_spec (contactData : JSRecord)
    (profiles : List PersonaProfile) :
    (profiles = [] →
      (calculatePersonaScore contactData profiles).personaType = "Unknown" ∧
      (calculatePersonaScore contactData profiles).matchScore = 0 ∧
      (calculatePersonaScore contactData profiles).attributes = []) ∧
    (profiles ≠ [] →
      ∃ i, ∃ hi : i < profiles.length,
        (calculatePersonaScore contactData profiles).personaType =
          (profiles.get ⟨i, hi⟩).name ∧
        (calculatePersonaScore contactData profiles).matchScore =
          (evaluatePersonaProfile contactData (profiles.get ⟨i, hi⟩)).1 ∧
        (calculatePersonaScore contactData profiles).attributes =
          (evaluatePersonaProfile contactData (profiles.get ⟨i, hi⟩)).2 ∧
        (∀ j, ∀ hj : j < profiles.length,
          (evaluatePersonaProfile contactData (profiles.get ⟨j, hj⟩)).1 ≤
            (evaluatePersonaProfile contactData (profiles.get ⟨i, hi⟩)).1) ∧
        (∀ j, ∀ hj : j < profiles.length, j < i →
          (evaluatePersonaProfile contactData (profiles.get ⟨j, hj⟩)).1 <
            (evaluatePersonaProfile contactData (profiles.get ⟨i, hi⟩)).1)) := by
  constructor
  · intro h
    subst h
    exact ⟨rfl, rfl, rfl⟩
  · intro hne
    cases profiles with
    | nil => exact absurd rfl hne
    | cons p t =>
      obtain ⟨c, hc, hble, hub, hdisj⟩ :=
        personaBestFold_spec contactData t (p, evaluatePersonaProfile contactData p)
      have hfold : (p :: t).foldl (personaBestStep contactData) none = some c := by
        simpa [List.foldl_cons, personaBestStep] using hc
      have hname : (calculatePersonaScore contactData (p :: t)).personaType =
          c.1.name := by
        simp [calculatePersonaScore, hfold]
      have hscore : (calculatePersonaScore contactData (p :: t)).matchScore =
          c.2.1 := by
        simp [calculatePersonaScore, hfold]
      have hattrs : (calculatePersonaScore contactData (p :: t)).attributes =
          c.2.2 := by
        simp [calculatePersonaScore, hfold]
      rcases hdisj with hcb | ⟨i, hi, hceq, hlt, hprev⟩
      · refine ⟨0, by simp, ?_, ?_, ?_, ?_, ?_⟩
        · rw [hname, hcb]
          rfl
        · rw [hscore, hcb]
          rfl
        · rw [hattrs, hcb]
          rfl
        · intro j hj
          cases j with
          | zero => exact le_refl _
          | succ k =>
            have hkl : k < t.length := by
              simp at hj
              omega
            have hment : t.get ⟨k, hkl⟩ ∈ t := List.get_mem t k hkl
            have := hub _ hment
            rw [hcb] at this
            exact this
        · intro j hj hj0
          omega
      · refine ⟨i + 1, by simpa using Nat.succ_lt_succ hi, ?_, ?_, ?_, ?_, ?_⟩
        · rw [hname, hceq]
          rfl
        · rw [hscore, hceq]
          rfl
        · rw [hattrs, hceq]
          rfl
        · intro j hj
          cases j with
          | zero =>
            have : c.2.1 = (evaluatePersonaProfile contactData
                (t.get ⟨i, hi⟩)).1 := by rw [hceq]
            exact this ▸ hble
          | succ k =>
            have hkl : k < t.length := by
              simp at hj
              omega
            have hment : t.get ⟨k, hkl⟩ ∈ t := List.get_mem t k hkl
            have h2 := hub _ hment
            have : c.2.1 = (evaluatePersonaProfile contactData
                (t.get ⟨i, hi⟩)).1 := by rw [hceq]
            exact this ▸ h2
        · intro j hj hjlt
          have hc21 : c.2.1 = (evaluatePersonaProfile contactData
              (t.get ⟨i, hi⟩)).1 := by rw [hceq]
          cases j with
          | zero => exact hc21 ▸ hlt
          | succ k =>
            have hk : k < i := by omega
            have hkl : k < t.length := by
              simp at hj
              omega
            exact hc21 ▸ hprev k hkl hk

/-- A pair of tied persona profiles used as a concrete witness input. -/
def tiedProfilesWitnessInput : List PersonaProfile :=
  [{ name := "First", attributes := [] },
   { name := "Second", attributes := [] }]

/-- C8 witness: with two configured profiles both scoring 0 on the empty
attribute map, the first-declared profile wins the tie. -/
theorem calculatePersonaScore_spec_witness :
    ∃ i, ∃ hi : i < tiedProfilesWitnessInput.length,
      (calculatePersonaScore [] tiedProfilesWitnessInput).personaType =
        (tiedProfilesWitnessInput.get ⟨i, hi⟩).name ∧
      (calculatePersonaScore [] tiedProfilesWitnessInput).matchScore =
        (evaluatePersonaProfile [] (tiedProfilesWitnessInput.get ⟨i, hi⟩)).1 ∧
      (calculatePersonaScore [] tiedProfilesWitnessInput).attributes =
        (evaluatePersonaProfile [] (tiedProfilesWitnessInput.get ⟨i, hi⟩)).2 ∧
      (∀ j, ∀ hj : j < tiedProfilesWitnessInput.length,
        (evaluatePersonaProfile [] (tiedProfilesWitnessInput.get ⟨j, hj⟩)).1 ≤
          (evaluatePersonaProfile []
            (tiedProfilesWitnessInput.get ⟨i, hi⟩)).1) ∧
      (∀ j, ∀ hj : j < tiedProfilesWitnessInput.length, j < i →
        (evaluatePersonaProfile [] (tiedProfilesWitnessInput.get ⟨j, hj⟩)).1 <
          (evaluatePersonaProfile []
            (tiedProfilesWitnessInput.get ⟨i, hi⟩)).1) :=
  (calculatePersonaScore_spec [] tiedProfilesWitnessInput).2
    (by simp [tiedProfilesWitnessInput])

/-! ### Claim C6 -/

theorem calculateUnifiedScore_signalStore (now : ℚ) (companyId : String)
    (config : ScoringConfig) (st : ScoreState) :
    ((calculateUnifiedScore now companyId config st).2).signalStore =
      st.signalStore := by
  unfold calculateUnifiedScore
  by_cases h : (getSignalsForCompany st companyId).isEmpty = true <;> simp [h]

theorem calculateUnifiedScore_fst (now : ℚ) (companyId : String)
    (config : ScoringConfig) (st : ScoreState)
    (signals : List IntentSignal)
    (hs : getSignalsForCompany st companyId = signals)
    (hne : signals.isEmpty = false) :
    (calculateUnifiedScore now companyId config st).1 =
      some (unifiedScoreFor now companyId config signals
        ((assocGet st.scoreCache companyId).map (fun s => s.overallScore))) := by
  unfold calculateUnifiedScore
  simp only [hs, hne, Bool.false_eq_true, if_false]

theorem calculateUnifiedScore_scoreCache (now : ℚ) (companyId : String)
    (config : ScoringConfig) (st : ScoreState)
    (signals : List IntentSignal)
    (hs : getSignalsForCompany st companyId = signals)
    (hne : signals.isEmpty = false) :
    ((calculateUnifiedScore now companyId config st).2).scoreCache =
      assocSet st.scoreCache companyId
        (unifiedScoreFor now companyId config signals
          ((assocGet st.scoreCache companyId).map
            (fun s => s.overallScore))) := by
  unfold calculateUnifiedScore
  simp only [hs, hne, Bool.false_eq_true, if_false]

theorem unifiedScoreFor_overall_indep (now : ℚ) (companyId : String)
    (config : ScoringConfig) (signals : List IntentSignal)
    (prevA prevB : Option ℤ) :
    (unifiedScoreFor now companyId config signals prevA).overallScore =
      (unifiedScoreFor now companyId config signals prevB).overallScore := rfl

theorem unifiedScoreFor_trend_eq (now : ℚ) (companyId : String)
    (config : ScoringConfig) (signals : List IntentSignal)
    (prev : Option ℤ) :
    (unifiedScoreFor now companyId config signals prev).trend =
      determineTrend
        (unifiedScoreFor now companyId config signals prev).overallScore
        prev := rfl

theorem unifiedScoreFor_isSpike_eq (now : ℚ) (companyId : String)
    (config : ScoringConfig) (signals : List IntentSignal)
    (prev : Option ℤ) :
    (unifiedScoreFor now companyId config signals prev).isSpike =
      checkForSpike
        (unifiedScoreFor now companyId config signals prev).overallScore
        prev config.spikeThresholdPercent := rfl

theorem determineTrend_self (x : ℤ) : determineTrend x (some x) = .stable := by
  simp [determineTrend]

theorem checkForSpike_self (x : ℤ) (θ : ℚ) (hθ : 0 < θ) :
    checkForSpike x (some x) θ = false := by
  show (if x = 0 then false
    else decide (θ ≤ (((x : ℚ) - (x : ℚ)) / (x : ℚ)) * 100)) = false
  by_cases hx : x = 0
  · rw [if_pos hx]
  · rw [if_neg hx, sub_self, zero_div, zero_mul]
    simp [not_le.mpr hθ]

/-- C6: calling `computeScore` twice in immediate succession (same evaluation
time, no signals added in between, positive spike threshold as in the
default configuration) yields on the second call trend `stable` and
`isSpike = false`, because the first call replaced the cached baseline with
the very score the second call recomputes. -/
theorem calculateUnifiedScore_twice_stable (now : ℚ) (companyId : String)
    (config : ScoringConfig) (st : ScoreState)
    (hθ : 0 < config.spikeThresholdPercent)
    (hsig : getSignalsForCompany st companyId ≠ []) :
    ∃ s₂, (calculateUnifiedScore now companyId config
        (calculateUnifiedScore now companyId config st).2).1 = some s₂ ∧
      s₂.trend = Trend.stable ∧ s₂.isSpike = false := by
  have hne : (getSignalsForCompany st companyId).isEmpty = false := by
    cases hl : getSignalsForCompany st companyId with
    | nil => exact absurd hl hsig
    | cons a l => rfl
  have hsig₁ : getSignalsForCompany
      (calculateUnifiedScore now companyId config st).2 companyId =
      getSignalsForCompany st companyId := by
    unfold getSignalsForCompany
    rw [calculateUnifiedScore_signalStore]
  have hcache := calculateUnifiedScore_scoreCache now companyId config st
    (getSignalsForCompany st companyId) rfl hne
  have hprev₂ : (assocGet
      ((calculateUnifiedScore now companyId config st).2).scoreCache
      companyId).map (fun s => s.overallScore) =
      some ((unifiedScoreFor now companyId config
        (getSignalsForCompany st companyId)
        ((assocGet st.scoreCache companyId).map
          (fun s => s.overallScore))).overallScore) := by
    rw [hcache, assocGet_assocSet]
    simp
  have hsecond := calculateUnifiedScore_fst now companyId config
    (calculateUnifiedScore now companyId config st).2
    (getSignalsForCompany st companyId) hsig₁ hne
  rw [hprev₂] at hsecond
  refine ⟨_, hsecond, ?_, ?_⟩
  · rw [unifiedScoreFor_trend_eq, unifiedScoreFor_overall_indep now companyId
      config _ _ ((assocGet st.scoreCache companyId).map
        (fun s => s.overallScore))]
    exact determineTrend_self _
  · rw [unifiedScoreFor_isSpike_eq, unifiedScoreFor_overall_indep now companyId
      config _ _ ((assocGet st.scoreCache companyId).map
        (fun s => s.overallScore))]
    exact checkForSpike_self _ _ hθ

/-- One fresh signal, used in concrete witness states. -/
def witnessSignal : IntentSignal :=
  { source := .apollo, companyId := "c", companyName := "Acme",
    domain := none, topic := "Cloud", signalStrength := 80, timestamp := 0 }

/-- A score state holding exactly one signal, for the C6 witness. -/
def singleSignalState : ScoreState :=
  { signalStore := [("c", [witnessSignal])], scoreCache := [] }

/-- C6 witness at a concrete state. -/
theorem calculateUnifiedScore_twice_stable_witness :
    ∃ s₂, (calculateUnifiedScore 0 "c" defaultConfig
        (calculateUnifiedScore 0 "c" defaultConfig singleSignalState).2).1 =
        some s₂ ∧ s₂.trend = Trend.stable ∧ s₂.isSpike = false :=
  calculateUnifiedScore_twice_stable 0 "c" defaultConfig singleSignalState
    (by norm_num [defaultConfig])
    (by simp [getSignalsForCompany, singleSignalState, assocGet])

/-! ### Claim C3 -/

/-- The non-priority source. -/
def secondaryOf (prioritySource : Source) : Source :=
  if prioritySource = Source.zoominfo then Source.apollo else Source.zoominfo

theorem overlayMeaningful_cons (m : JSRecord) (p : String × JSVal)
    (t : JSRecord) :
    overlayMeaningful m (p :: t) =
      overlayMeaningful (if isMeaningful p.2 then assocSet m p.1 p.2 else m)
        t := rfl

theorem recordAssign_cons (m : JSRecord) (p : String × JSVal) (t : JSRecord) :
    recordAssign m (p :: t) = recordAssign (assocSet m p.1 p.2) t := rfl

theorem assocGet_overlayMeaningful_skip (entries : JSRecord) (k : String) :
    ∀ m : JSRecord, (∀ v, (k, v) ∈ entries → isMeaningful v = false) →
      assocGet (overlayMeaningful m entries) k = assocGet m k := by
  induction entries with
  | nil => intro m _; rfl
  | cons p t ih =>
    intro m hk
    obtain ⟨pk, pv⟩ := p
    rw [overlayMeaningful_cons]
    by_cases hm : isMeaningful pv = true
    · have hpk : ¬pk = k := by
        intro h
        subst h
        exact absurd hm (by simp [hk pv (List.mem_cons_self _ _)])
      rw [if_pos hm]
      rw [ih (assocSet m pk pv)
        (fun v hv => hk v (List.mem_cons_of_mem _ hv))]
      rw [assocGet_assocSet, if_neg (fun h => hpk h.symm)]
    · rw [if_neg hm]
      exact ih m (fun v hv => hk v (List.mem_cons_of_mem _ hv))

theorem assocGet_overlayMeaningful_mem (entries : JSRecord) (k : String)
    (v : JSVal) :
    ∀ m : JSRecord, (entries.map Prod.fst).Nodup → (k, v) ∈ entries →
      isMeaningful v = true →
      assocGet (overlayMeaningful m entries) k = some v := by
  induction entries with
  | nil => intro m _ hmem _; cases hmem
  | cons p t ih =>
    intro m hnodup hmem hm
    obtain ⟨pk, pv⟩ := p
    rw [overlayMeaningful_cons]
    rw [List.map_cons, List.nodup_cons] at hnodup
    have hnd := hnodup
    rcases List.mem_cons.mp hmem with heq | hmem'
    · obtain ⟨hk, hv⟩ := Prod.mk.injEq .. ▸ heq
      subst hk
      subst hv
      rw [if_pos hm]
      have hno : ∀ w, (k, w) ∈ t → isMeaningful w = false := by
        intro w hw
        exact absurd (List.mem_map.mpr ⟨(k, w), hw, rfl⟩) hnd.1
      rw [assocGet_overlayMeaningful_skip t k _ hno, assocGet_assocSet,
        if_pos rfl]
    · have hpk : ¬pk = k := by
        intro h
        subst h
        exact absurd (List.mem_map.mpr ⟨(pk, v), hmem', rfl⟩) hnd.1
      by_cases hmp : isMeaningful pv = true
      · rw [if_pos hmp]
        exact ih (assocSet m pk pv) hnd.2 hmem' hm
      · rw [if_neg hmp]
        exact ih m hnd.2 hmem' hm

theorem assocGet_overlayMeaningful_isSome (entries : JSRecord) (k : String) :
    ∀ m : JSRecord,
      ((assocGet (overlayMeaningful m entries) k).isSome = true ↔
        (assocGet m k).isSome = true ∨
          ∃ v, (k, v) ∈ entries ∧ isMeaningful v = true) := by
  induction entries with
  | nil => intro m; simp [overlayMeaningful]
  | cons p t ih =>
    intro m
    obtain ⟨pk, pv⟩ := p
    rw [overlayMeaningful_cons]
    by_cases hm : isMeaningful pv = true
    · rw [if_pos hm, ih]
      have hset : ((assocGet (assocSet m pk pv) k).isSome = true) ↔
          (k = pk ∨ (assocGet m k).isSome = true) := by
        rw [assocGet_assocSet]
        by_cases h : k = pk <;> simp [h]
      rw [hset]
      constructor
      · rintro ((rfl | hs) | ⟨v, hv, hmv⟩)
        · exact Or.inr ⟨pv, List.mem_cons_self _ _, hm⟩
        · exact Or.inl hs
        · exact Or.inr ⟨v, List.mem_cons_of_mem _ hv, hmv⟩
      · rintro (hs | ⟨v, hv, hmv⟩)
        · exact Or.inl (Or.inr hs)
        · rcases List.mem_cons.mp hv with heq | hv'
          · obtain ⟨hk, _⟩ := Prod.mk.injEq .. ▸ heq
            exact Or.inl (Or.inl hk)
          · exact Or.inr ⟨v, hv', hmv⟩
    · rw [if_neg hm, ih]
      constructor
      · rintro (hs | ⟨v, hv, hmv⟩)
        · exact Or.inl hs
        · exact Or.inr ⟨v, List.mem_cons_of_mem _ hv, hmv⟩
      · rintro (hs | ⟨v, hv, hmv⟩)
        · exact Or.inl hs
        · rcases List.mem_cons.mp hv with heq | hv'
          · obtain ⟨_, hveq⟩ := Prod.mk.injEq .. ▸ heq
            subst hveq
            exact absurd hmv hm
          · exact Or.inr ⟨v, hv', hmv⟩

theorem assocGet_recordAssign_not_mem (src : JSRecord) (k : String) :
    ∀ m : JSRecord, k ∉ src.map Prod.fst →
      assocGet (recordAssign m src) k = assocGet m k := by
  induction src with
  | nil => intro m _; rfl
  | cons p t ih =>
    intro m hk
    obtain ⟨pk, pv⟩ := p
    rw [recordAssign_cons]
    have hpk : ¬pk = k := by
      intro h
      exact hk (by simp [h])
    rw [ih (assocSet m pk pv) (fun h => hk (by simp; right; simpa using h)),
      assocGet_assocSet, if_neg (fun h => hpk h.symm)]

theorem assocGet_recordAssign_mem (src : JSRecord) (k : String) (v : JSVal) :
    ∀ m : JSRecord, (src.map Prod.fst).Nodup → (k, v) ∈ src →
      assocGet (recordAssign m src) k = some v := by
  induction src with
  | nil => intro m _ hmem; cases hmem
  | cons p t ih =>
    intro m hnodup hmem
    obtain ⟨pk, pv⟩ := p
    rw [recordAssign_cons]
    rw [List.map_cons, List.nodup_cons] at hnodup
    have hnd := hnodup
    rcases List.mem_cons.mp hmem with heq | hmem'
    · obtain ⟨hk, hv⟩ := Prod.mk.injEq .. ▸ heq
      subst hk
      subst hv
      rw [assocGet_recordAssign_not_mem t k _ hnd.1, assocGet_assocSet,
        if_pos rfl]
    · exact ih (assocSet m pk pv) hnd.2 hmem'

theorem assocGet_recordAssign_isSome (src : JSRecord) (k : String) :
    ∀ m : JSRecord,
      ((assocGet (recordAssign m src) k).isSome = true ↔
        (assocGet m k).isSome = true ∨ k ∈ src.map Prod.fst) := by
  induction src with
  | nil => intro m; simp [recordAssign]
  | cons p t ih =>
    intro m
    obtain ⟨pk, pv⟩ := p
    rw [recordAssign_cons, ih]
    have hset : ((assocGet (assocSet m pk pv) k).isSome = true) ↔
        (k = pk ∨ (assocGet m k).isSome = true) := by
      rw [assocGet_assocSet]
      by_cases h : k = pk <;> simp [h]
    rw [hset]
    simp only [List.map_cons, List.mem_cons]
    constructor
    · rintro ((rfl | hs) | hmem)
      · exact Or.inr (Or.inl rfl)
      · exact Or.inl hs
      · exact Or.inr (Or.inr hmem)
    · rintro (hs | (hk | hmem))
      · exact Or.inl (Or.inr hs)
      · exact Or.inl (Or.inl hk)
      · exact Or.inr hmem

theorem mergeEnrichmentData_eq (entityType : EntityType) (entityId : String)
    (P : Source) (store : EnrichmentStore)
    (hA : ∀ d, getEnrichmentData entityType entityId .apollo store = some d →
      d.source = .apollo)
    (hZ : ∀ d, getEnrichmentData entityType entityId .zoominfo store = some d →
      d.source = .zoominfo) :
    mergeEnrichmentData entityType entityId P store =
      (match getEnrichmentData entityType entityId (secondaryOf P) store,
             getEnrichmentData entityType entityId P store with
       | none, none => []
       | some ds, none => recordAssign [] ds.data
       | none, some dp => overlayMeaningful [] dp.data
       | some ds, some dp =>
         overlayMeaningful (recordAssign [] ds.data) dp.data) := by
  cases P with
  | apollo =>
    cases ha : getEnrichmentData entityType entityId .apollo store with
    | none =>
      cases hz : getEnrichmentData entityType entityId .zoominfo store with
      | none =>
        simp [mergeEnrichmentData, getAllEnrichmentForEntity, secondaryOf,
          ha, hz]
      | some dz =>
        have hdz := hZ dz hz
        simp [mergeEnrichmentData, getAllEnrichmentForEntity, secondaryOf,
          ha, hz, hdz]
    | some da =>
      have hda := hA da ha
      cases hz : getEnrichmentData entityType entityId .zoominfo store with
      | none =>
        simp [mergeEnrichmentData, getAllEnrichmentForEntity, secondaryOf,
          ha, hz, hda]
      | some dz =>
        have hdz := hZ dz hz
        simp [mergeEnrichmentData, getAllEnrichmentForEntity, secondaryOf,
          ha, hz, hda, hdz]
  | zoominfo =>
    cases ha : getEnrichmentData entityType entityId .apollo store with
    | none =>
      cases hz : getEnrichmentData entityType entityId .zoominfo store with
      | none =>
        simp [mergeEnrichmentData, getAllEnrichmentForEntity, secondaryOf,
          ha, hz]
      | some dz =>
        have hdz := hZ dz hz
        simp [mergeEnrichmentData, getAllEnrichmentForEntity, secondaryOf,
          ha, hz, hdz]
    | some da =>
      have hda := hA da ha
      cases hz : getEnrichmentData entityType entityId .zoominfo store with
      | none =>
        simp [mergeEnrichmentData, getAllEnrichmentForEntity, secondaryOf,
          ha, hz, hda]
      | some dz =>
        have hdz := hZ dz hz
        simp [mergeEnrichmentData, getAllEnrichmentForEntity, secondaryOf,
          ha, hz, hda, hdz]

/-- Snapshot whose only attribute carries the empty string, for the C3
counterexample. -/
def emptyStringPrioritySnapshot : EnrichmentData :=
  { entityType := .company, entityId := "c1", source := .zoominfo,
    data := [("foo", .vStr "")], timestamp := "t" }

/-- Store holding only the priority-source snapshot above. -/
def emptyStringPriorityStore : EnrichmentStore :=
  [(getEnrichmentKey .company "c1" .zoominfo, emptyStringPrioritySnapshot)]

/-- C3 counterexample: the claim says the merged map's keys are the union of
both sources' keys; but when the priority snapshot's only attribute `foo`
holds the empty string (and no secondary snapshot exists), the merge result
is empty even though `foo` is a key of the union. -/
theorem mergeEnrichmentData_keys_not_union :
    mergeEnrichmentData .company "c1" .zoominfo emptyStringPriorityStore
        = [] ∧
    (getEnrichmentData .company "c1" .zoominfo
        emptyStringPriorityStore).map (fun d => d.data.map Prod.fst)
      = some ["foo"] := ⟨rfl, rfl⟩

/-- C3 (amended): for every entity, merge with priority source `P` starts
from the non-priority source's full attribute map and overlays every
attribute of `P`'s map except those whose value is absent, `null`, or the
empty string; consequently a meaningfully-populated priority key wins, a
secondary key not meaningfully overridden keeps its secondary value (in
particular an empty-string priority value never blanks a populated secondary
value), and the merged key set is the union of the secondary source's keys
with the priority source's meaningfully-populated keys (not the full union
of both sources' keys); merge returns the empty map when no snapshots exist
for the entity. -/
theorem mergeEnrichmentData_spec (entityType : EntityType)
    (entityId : String) (P : Source) (store : EnrichmentStore)
    (hA : ∀ d, getEnrichmentData entityType entityId .apollo store = some d →
      d.source = .apollo)
    (hZ : ∀ d, getEnrichmentData entityType entityId .zoominfo store = some d →
      d.source = .zoominfo) :
    (getEnrichmentData entityType entityId .apollo store = none →
      getEnrichmentData entityType entityId .zoominfo store = none →
      mergeEnrichmentData entityType entityId P store = []) ∧
    (∀ dp k v, getEnrichmentData entityType entityId P store = some dp →
      (dp.data.map Prod.fst).Nodup → (k, v) ∈ dp.data →
      isMeaningful v = true →
      assocGet (mergeEnrichmentData entityType entityId P store) k
        = some v) ∧
    (∀ ds k v,
      getEnrichmentData entityType entityId (secondaryOf P) store = some ds →
      (ds.data.map Prod.fst).Nodup → (k, v) ∈ ds.data →
      (∀ dp, getEnrichmentData entityType entityId P store = some dp →
        ∀ w, (k, w) ∈ dp.data → isMeaningful w = false) →
      assocGet (mergeEnrichmentData entityType entityId P store) k
        = some v) ∧
    (∀ k,
      (assocGet (mergeEnrichmentData entityType entityId P store) k).isSome
          = true ↔
        ((∃ ds, getEnrichmentData entityType entityId (secondaryOf P) store
            = some ds ∧ k ∈ ds.data.map Prod.fst) ∨
         (∃ dp v, getEnrichmentData entityType entityId P store = some dp ∧
            (k, v) ∈ dp.data ∧ isMeaningful v = true))) := by
  rw [mergeEnrichmentData_eq entityType entityId P store hA hZ]
  cases hS : getEnrichmentData entityType entityId (secondaryOf P) store with
  | none =>
    cases hP : getEnrichmentData entityType entityId P store with
    | none =>
      refine ⟨fun _ _ => rfl, ?_, ?_, ?_⟩
      · intro dp k v hdp
        exact Option.noConfusion hdp
      · intro ds k v hds
        exact Option.noConfusion hds
      · intro k
        simp [assocGet]
    | some dp =>
      refine ⟨?_, ?_, ?_, ?_⟩
      · intro h1 h2
        have hall : ∀ s, getEnrichmentData entityType entityId s store
            = none := by
          intro s
          cases s
          · exact h1
          · exact h2
        rw [hall P] at hP
        cases hP
      · intro dp' k v hdp' hnodup hmem hm
        cases hdp'
        exact assocGet_overlayMeaningful_mem dp.data k v [] hnodup hmem hm
      · intro ds k v hds
        exact Option.noConfusion hds
      · intro k
        rw [assocGet_overlayMeaningful_isSome]
        simp [assocGet]
  | some ds =>
    cases hP : getEnrichmentData entityType entityId P store with
    | none =>
      refine ⟨?_, ?_, ?_, ?_⟩
      · intro h1 h2
        have hall : ∀ s, getEnrichmentData entityType entityId s store
            = none := by
          intro s
          cases s
          · exact h1
          · exact h2
        rw [hall (secondaryOf P)] at hS
        cases hS
      · intro dp k v hdp
        exact Option.noConfusion hdp
      · intro ds' k v hds' hnodup hmem _
        cases hds'
        exact assocGet_recordAssign_mem ds.data k v [] hnodup hmem
      · intro k
        rw [assocGet_recordAssign_isSome]
        simp [assocGet]
    | some dp =>
      refine ⟨?_, ?_, ?_, ?_⟩
      · intro h1 h2
        have hall : ∀ s, getEnrichmentData entityType entityId s store
            = none := by
          intro s
          cases s
          · exact h1
          · exact h2
        rw [hall (secondaryOf P)] at hS
        cases hS
      · intro dp' k v hdp' hnodup hmem hm
        cases hdp'
        exact assocGet_overlayMeaningful_mem dp.data k v _ hnodup hmem hm
      · intro ds' k v hds' hnodup hmem hcond
        cases hds'
        rw [assocGet_overlayMeaningful_skip dp.data k _ (hcond dp rfl)]
        exact assocGet_recordAssign_mem ds.data k v [] hnodup hmem
      · intro k
        rw [assocGet_overlayMeaningful_isSome, assocGet_recordAssign_isSome]
        simp only [assocGet, Option.isSome_none, Bool.false_eq_true,
          false_or, Option.some.injEq]
        constructor
        · rintro (hmem | ⟨v, hv, hmv⟩)
          · exact Or.inl ⟨ds, rfl, hmem⟩
          · exact Or.inr ⟨dp, v, rfl, hv, hmv⟩
        · rintro (⟨ds', hds', hmem⟩ | ⟨dp', v, hdp', hv, hmv⟩)
          · cases hds'
            exact Or.inl hmem
          · cases hdp'
            exact Or.inr ⟨v, hv, hmv⟩

/-- Apollo-side snapshot of the merge witness. -/
def apolloWitnessSnapshot : EnrichmentData :=
  { entityType := .company, entityId := "c1", source := .apollo,
    data := [("employeeCount", .vNum 500), ("industry", .vStr "Tech"),
             ("website", .vStr "a.com")],
    timestamp := "t1" }

/-- ZoomInfo-side snapshot of the merge witness. -/
def zoominfoWitnessSnapshot : EnrichmentData :=
  { entityType := .company, entityId := "c1", source := .zoominfo,
    data := [("employeeCount", .vNum 600), ("annualRevenue", .vNum 50000000)],
    timestamp := "t2" }

/-- Store holding both witness snapshots. -/
def mergeWitnessStore : EnrichmentStore :=
  [(getEnrichmentKey .company "c1" .apollo, apolloWitnessSnapshot),
   (getEnrichmentKey .company "c1" .zoominfo, zoominfoWitnessSnapshot)]

/-- C3 amended-claim witness: with default priority zoominfo, the populated
priority value 600 wins the `employeeCount` key. -/
theorem mergeEnrichmentData_spec_witness :
    assocGet (mergeEnrichmentData .company "c1" .zoominfo mergeWitnessStore)
      "employeeCount" = some (.vNum 600) :=
  (mergeEnrichmentData_spec .company "c1" .zoominfo mergeWitnessStore
      (by
        intro d hd
        have h2 : some apolloWitnessSnapshot = some d := hd
        cases h2
        rfl)
      (by
        intro d hd
        have h2 : some zoominfoWitnessSnapshot = some d := hd
        cases h2
        rfl)).2.1
    zoominfoWitnessSnapshot "employeeCount" (.vNum 600) rfl (by decide)
    (by simp [zoominfoWitnessSnapshot]) rfl

end IntentEngine
